import Mathlib

/-!
Verification of the CALIPSO lidar file-processing pipeline (calipso.py):
horizontal block averaging of profile sequences, vertical regridding of
ancillary fields, molecular calibration, timestamp decoding and resource
release.  Numbers are modelled as rationals; a float NaN (produced in the
source by assigning Python `None` or a numpy masked element into a float
array) is modelled as `Option.none`, and masked-array statistics are
modelled by functions over `Option` values that skip `none` entries.
-/

namespace Calipso

/-- Arithmetic mean of a list of rationals (`ndarray.mean`): sum divided by
length.  The source only evaluates it on nonempty selections. -/
def listMean (xs : List ℚ) : ℚ := xs.sum / (xs.length : ℚ)

/-- Model of `numpy.ma.mean`: mean of the unmasked entries; a selection whose
unmasked count is zero yields the masked constant (`none`). -/
def maskedMean (xs : List (Option ℚ)) : Option ℚ :=
  let vs := xs.filterMap id
  if vs.isEmpty then none else some (listMean vs)

/-- Division on masked scalars: a masked operand propagates. -/
def mdiv : Option ℚ → Option ℚ → Option ℚ
  | some a, some b => some (a / b)
  | _, _ => none

/-- Product of a masked scalar with a plain coefficient scalar. -/
def omul : Option ℚ → Option ℚ → Option ℚ
  | some a, some b => some (a * b)
  | _, _ => none

/-- The slice `xs[i*navg : i*navg + navg - 1]` taken by every reducer for
block `i`: the last index of the block is excluded. -/
def blockSlice (navg i : ℕ) (xs : List α) : List α :=
  (xs.drop (i * navg)).take (navg - 1)

/-- The elements of block `i` of `v0` that survive the filter of
`_vector_average`: not equal to the sentinel (when one is given),
mask-valid, and greater than -999. -/
def vectorSurvivors (missing : Option ℚ) (v0 : List ℚ) (valid : List Bool)
    (navg i : ℕ) : List ℚ :=
  (((blockSlice navg i v0).zip (blockSlice navg i valid)).filter (fun p =>
    match missing with
    | none => p.2 && decide (p.1 > -999)
    | some m => decide (p.1 ≠ m) && p.2 && decide (p.1 > -999))).map Prod.fst

/-- The function `_vector_average(v0, navg, missing, valid)`: block reduction of a
vector.  `navg = 1` returns the input; otherwise block `i` of the output
is the mean of the surviving elements of `v0[i*navg : i*navg+navg-1]`,
`-9999` for an empty-survivor block when no sentinel is given, and NaN
(`none`, from the source assignment `v[i] = None`) for an empty-survivor block when
a sentinel is given. -/
def _vector_average (v0 : List ℚ) (navg : ℕ) (missing : Option ℚ)
    (valid? : Option (List Bool)) : List (Option ℚ) :=
  if navg = 1 then v0.map some else
  let valid := valid?.getD (List.replicate v0.length true)
  (List.range (v0.length / navg)).map (fun i =>
    let s := vectorSurvivors missing v0 valid navg i
    match missing with
    | none => if s.isEmpty then some (-9999) else some (listMean s)
    | some _ => if s.isEmpty then none else some (listMean s))

/-- Number of columns of a 2D array, `np.size(a0, 1)`. -/
def ncols (a0 : List (List ℚ)) : ℕ := (a0.headD []).length

/-- The rows of block `i` of `a0` that pass the validity mask
(`aslice[idx, :]` with `idx = validslice != 0`). -/
def validRows (valid : List Bool) (navg i : ℕ) (a0 : List (List ℚ)) :
    List (List ℚ) :=
  (((blockSlice navg i a0).zip (blockSlice navg i valid)).filter
    (fun p => p.2)).map Prod.fst

/-- Per-column count of contributing samples, `npts = sum(aslice > -999)`. -/
def colNpts (rows : List (List ℚ)) (j : ℕ) : ℕ :=
  (rows.filter (fun r => decide (r.getD j 0 > -999))).length

/-- Per-column sum after zeroing entries `< -999`
(`aslice[aslice < -999] = 0` followed by `sum(aslice, axis=0)`; an entry
exactly equal to `-999` is summed but not counted, as in the source). -/
def colSum (rows : List (List ℚ)) (j : ℕ) : ℚ :=
  (rows.map (fun r => if r.getD j 0 < -999 then 0 else r.getD j 0)).sum

/-- The function `_array_average(a0, navg, weighted, valid, missing)`:
block reduction of a 2D array along the profile axis.  `navg = 1` returns
the input before anything else runs; `navg = 0` faults at the block-count
division `1. * np.size(a0, 0) / navg`.  With no sentinel, mask-failing
rows of a block are dropped; a block with no surviving row is the all
`-9999` row; otherwise column `j` averages the samples `> -999` of the
surviving rows and is `-9999` when that count is zero.  With a sentinel,
the first loop iteration executes `ma.mean(aslice, axis=0, weights=w)`,
and `ma.mean` accepts no `weights` keyword, so the call raises
`TypeError` whenever there is at least one block (with zero blocks the
loop body never runs and the empty array is returned). -/
def _array_average (a0 : List (List ℚ)) (navg : ℕ) (_weighted : Bool)
    (valid? : Option (List Bool)) (missing : Option ℚ) :
    Except String (List (List (Option ℚ))) :=
  if navg = 1 then .ok (a0.map (fun r => r.map some)) else
  if navg = 0 then .error ("ZeroDivisionError") else
  let valid := valid?.getD (List.replicate a0.length true)
  let n := a0.length / navg
  match missing with
  | none =>
    .ok ((List.range n).map (fun i =>
      let rows := validRows valid navg i a0
      if rows.isEmpty then List.replicate (ncols a0) (some (-9999))
      else (List.range (ncols a0)).map (fun j =>
        if colNpts rows j = 0 then some (-9999)
        else some (colSum rows j / (colNpts rows j : ℚ)))))
  | some _ =>
    if 0 < n then .error ("TypeError") else .ok []

/-- The function `_array_std(a0, navg, valid)`: block standard deviation.  The float
standard-deviation primitive `np.std` is `npstd`, abstract here since an
exact square root does not exist on the rationals.  `navg = 1` returns an
all-zero array of the shape of the input; a block with no mask-valid rows
is the all `-9999` row. -/
def _array_std (npstd : List ℚ → ℚ) (a0 : List (List ℚ)) (navg : ℕ)
    (valid? : Option (List Bool)) : List (List ℚ) :=
  if navg = 1 then a0.map (fun r => r.map (fun _ => 0)) else
  let valid := valid?.getD (List.replicate a0.length true)
  (List.range (a0.length / navg)).map (fun i =>
    let rows := validRows valid navg i a0
    if rows.isEmpty then List.replicate (ncols a0) (-9999)
    else (List.range (ncols a0)).map (fun j =>
      npstd (rows.map (fun r => r.getD j 0))))

/-- Model of `np.interp(x, xp, fp)` for ascending coordinates `xp`: the endpoint
value outside the coordinate range (constant extrapolation), linear
interpolation inside. -/
def npinterp (x : ℚ) : List ℚ → List ℚ → ℚ
  | x0 :: x1 :: xs, f0 :: f1 :: fs =>
    if x ≤ x0 then f0
    else if x ≤ x1 then f0 + (f1 - f0) * (x - x0) / (x1 - x0)
    else npinterp x (x1 :: xs) (f1 :: fs)
  | [_], f0 :: _ => f0
  | _, _ => 0

/-- The function `_remap_y(z0, y0, y)`: per-profile linear interpolation of the rows of
`z0` onto the target coordinates `y`; source coordinates and values are
reversed (`np.flipud`) because they are stored in decreasing order. -/
def _remap_y (z0 : List (List ℚ)) (y0 y : List ℚ) : List (List ℚ) :=
  z0.map (fun row => y.map (fun t => npinterp t y0.reverse row.reverse))

/-- The 1D or 2D payload of an hdf variable. -/
inductive NdVar
  | v1 (xs : List ℚ)
  | v2 (xs : List (List ℚ))

/-- Model of `np.size(var, 0)`: number of shots of a variable. -/
def NdVar.size0 : NdVar → ℕ
  | .v1 xs => xs.length
  | .v2 xs => xs.length

/-- The outcome of `Cal1._read_var`: the Python `None` signal, the empty
list returned for `navg = 0`, a (possibly averaged) 1D or 2D array, or an
uncaught exception propagating out of the averaging call. -/
inductive ReadResult
  | noneR
  | emptyR
  | r1 (xs : List (Option ℚ))
  | r2 (xs : List (List (Option ℚ)))
  | raised (e : String)

/-- Sub-setting `var[i0:i1]` along the shot axis. -/
def applyIdx (idx : Option (ℕ × ℕ)) (xs : List α) : List α :=
  match idx with
  | none => xs
  | some (i0, i1) => (xs.take i1).drop i0

namespace Cal1

/-- The method `Cal1._read_var(varname, navg, idx, missing)`, with the raw read
already performed (`var` is the payload of the named variable): `navg = 0`
returns the empty list, `navg` exceeding the shot count returns `None`,
otherwise the data is sub-set by `idx` and block-averaged by the reducer
matching its rank when `navg > 1`. -/
def _read_var (var : NdVar) (navg : ℕ) (idx : Option (ℕ × ℕ))
    (missing : Option ℚ) (valid : Option (List Bool)) : ReadResult :=
  if navg = 0 then .emptyR
  else if var.size0 < navg then .noneR
  else
    match var with
    | .v1 xs =>
      let data := applyIdx idx xs
      if 1 < navg then .r1 (_vector_average data navg missing valid)
      else .r1 (data.map some)
    | .v2 xs =>
      let data := applyIdx idx xs
      if 1 < navg then
        match _array_average data navg false valid missing with
        | .ok ys => .r2 ys
        | .error e => .raised e
      else .r2 (data.map (fun r => r.map some))

end Cal1

/-- Day/night orbit code: the last two characters of the orbit id. -/
inductive OrbitType
  | ZN
  | ZD
deriving DecidableEq

/-- The table `atb_max`: maximum plausible atb magnitude for screening, per orbit
type. -/
def atb_max : OrbitType → ℚ
  | .ZN => 1 / 10000
  | .ZD => 1

/-- The table `iatb_bounds`: integrated-atb calibration bound interval, per orbit
type. -/
def iatb_bounds : OrbitType → ℚ × ℚ
  | .ZN => (1 / 100000, 8 / 100000)
  | .ZD => (-8 / 1000, 8 / 1000)

/-- The in-place screening `atb[np.abs(atb) > atb_max[z]] = np.nan`. -/
def screenAtb (z : OrbitType) (atb : List (List ℚ)) :
    List (List (Option ℚ)) :=
  atb.map (fun r => r.map (fun x =>
    if |x| > atb_max z then none else some x))

/-- The in-place screening `mol[mol < 0] = np.nan`. -/
def screenMol (mol : List (List ℚ)) : List (List (Option ℚ)) :=
  mol.map (fun r => r.map (fun x => if x < 0 then none else some x))

/-- Row entries at levels whose altitude lies inside the reference band
(`field[:, (alt >= zmin) & (alt <= zmax)]`). -/
def bandValues (alt : List ℚ) (zmin zmax : ℚ) (row : List (Option ℚ)) :
    List (Option ℚ) :=
  ((row.zip alt).filter (fun p =>
    decide (zmin ≤ p.2) && decide (p.2 ≤ zmax))).map Prod.fst

/-- Per-profile masked mean over the reference band
(`ma.mean(field[:, idx], axis=1)`). -/
def calibProfile (alt : List ℚ) (zmin zmax : ℚ)
    (field : List (List (Option ℚ))) : List (Option ℚ) :=
  field.map (fun row => maskedMean (bandValues alt zmin zmax row))

/-- The moving-window index list
`np.r_[max(0, i - navgh) : min(nprof - 1, i + navgh)]` (on naturals the
truncated subtraction `i - navgh` is `max(0, i - navgh)`). -/
def windowIdx (nprof navgh i : ℕ) : List ℕ :=
  (List.range (min (nprof - 1) (i + navgh) - (i - navgh))).map
    (fun k => (i - navgh) + k)

/-- Reference atb values of the window kept by the bound filter
(`atbslice[(atbslice > b0) & (atbslice < b1)]`; masked entries compare
masked and are excluded). -/
def keptAtb (z : OrbitType) (atbp : List (Option ℚ)) (idxh : List ℕ) :
    List ℚ :=
  idxh.filterMap (fun j =>
    match atbp.getD j none with
    | some x =>
      if (iatb_bounds z).1 < x ∧ x < (iatb_bounds z).2 then some x else none
    | none => none)

/-- Coefficient at profile `i`:
`ma.mean(atbslice[idx]) / ma.mean(molslice)`, a masked (NaN) operand
propagating to a NaN coefficient. -/
def coefAt (z : OrbitType) (atbp molp : List (Option ℚ))
    (nprof navgh i : ℕ) : Option ℚ :=
  let idxh := windowIdx nprof navgh i
  let kept := keptAtb z atbp idxh
  mdiv (if kept.isEmpty then none else some (listMean kept))
    (maskedMean (idxh.map (fun j => molp.getD j none)))

namespace Cal1

/-- The method `Cal1.mol_calibration_coef(mol, atb, navgh, zmin, zmax)` over arrays
already read and regridded.  The source first overwrites, in place, the
out-of-bound entries of the `atb` argument and the negative entries of
the `mol` argument with NaN; this state change is made explicit by returning
the two screened arrays next to the coefficient vector. -/
def mol_calibration_coef (z : OrbitType) (alt : List ℚ) (navgh : ℕ)
    (zmin zmax : ℚ) (mol atb : List (List ℚ)) :
    List (Option ℚ) × List (List (Option ℚ)) × List (List (Option ℚ)) :=
  let atbS := screenAtb z atb
  let molS := screenMol mol
  let atbp := calibProfile alt zmin zmax atbS
  let molp := calibProfile alt zmin zmax molS
  let nprof := molS.length
  ((List.range nprof).map (fun i => coefAt z atbp molp nprof navgh i),
   atbS, molS)

/-- The method `Cal1.mol_on_lidar_alt`: the molecular field regridded onto the lidar
altitudes. -/
def mol_on_lidar_alt (alt metalt : List ℚ) (mol0 : List (List ℚ)) :
    List (List ℚ) :=
  _remap_y mol0 metalt alt

/-- The method `Cal1.mol_on_lidar_alt_calibrated(...)` with the raw molecular field
and the pre-read averaged `atb` passed in: regrids `mol0`, computes the
coefficient and multiplies the (screened, since the coefficient call
mutated it) molecular field by the per-profile coefficient.  The second
component is the `atb` array of the caller as it stands after the call. -/
def mol_on_lidar_alt_calibrated (z : OrbitType) (alt metalt : List ℚ)
    (navgh : ℕ) (zcal : ℚ × ℚ) (mol0 atb : List (List ℚ)) :
    List (List (Option ℚ)) × List (List (Option ℚ)) :=
  let mol := mol_on_lidar_alt alt metalt mol0
  let r := mol_calibration_coef z alt navgh zcal.1 zcal.2 mol atb
  (r.2.2.mapIdx (fun i row => row.map (fun x => omul x (r.1.getD i none))),
   r.2.1)

end Cal1

/-- Decoded year offset of a `Profile_UTC_Time` value
(`np.floor(u / 10000.)`). -/
def decY (u : ℚ) : ℤ := ⌊u / 10000⌋

/-- Decoded month (`np.floor((u - y * 10000) / 100.)`). -/
def decM (u : ℚ) : ℤ := ⌊(u - (decY u : ℚ) * 10000) / 100⌋

/-- Decoded day of month (`np.floor(u - y * 10000 - m * 100)`). -/
def decD (u : ℚ) : ℤ :=
  ⌊u - (decY u : ℚ) * 10000 - (decM u : ℚ) * 100⌋

/-- Seconds into the day (`np.int((u - np.floor(u)) * 24. * 3600.)`; the
fraction is nonnegative, so truncation equals floor). -/
def secondsIntoDay (u : ℚ) : ℤ := ⌊(u - (⌊u⌋ : ℚ)) * (24 * 3600)⌋

/-- A value `datetime.datetime(y, m, d, 0, 0, 0) + timedelta(seconds=s)` with
`0 ≤ s < 86400`: a calendar date plus a second offset inside the day. -/
structure Timestamp where
  year : ℤ
  month : ℤ
  day : ℤ
  seconds : ℤ
deriving DecidableEq

/-- One sample decoded as in `Cal2.datetime`. -/
def decodeSlow (u : ℚ) : Timestamp :=
  ⟨decY u + 2000, decM u, decD u, secondsIntoDay u⟩

namespace Cal2

/-- The method `Cal2.datetime`: the slow path, decoding every sample independently. -/
def datetime (utc : List ℚ) : List Timestamp := utc.map decodeSlow

/-- The branch condition of `Cal2.datetime2`: `d0 == d1`, comparing only
the decoded day-of-month of the first and last samples. -/
def sameDayFastPath (utc : List ℚ) : Bool :=
  decD (utc.headD 0) == decD (utc.getLastD 0)

/-- The method `Cal2.datetime2`: the fast path reuses the decoded
date for every sample when `sameDayFastPath`; the slow path decodes each
sample independently. -/
def datetime2 (utc : List ℚ) : List Timestamp :=
  if sameDayFastPath utc then
    utc.map (fun u =>
      ⟨decY (utc.headD 0) + 2000, decM (utc.headD 0), decD (utc.headD 0),
        secondsIntoDay u⟩)
  else utc.map decodeSlow

end Cal2

namespace _Cal

/-- The method `_Cal.close`: `self.hdf.end(); self.hdf = None`, modelled on the
handle state; calling `end()` on an already-released handle (`None`)
raises `AttributeError`. -/
def close : Option Unit → Except String (Option Unit)
  | some _ => .ok none
  | none => .error ("AttributeError")

end _Cal

/-! Helper lemmas -/

theorem getD_map_range {β : Type} (f : ℕ → β) {n i : ℕ} (d : β) (h : i < n) :
    ((List.range n).map f).getD i d = f i := by
  simp [List.getD_eq_getElem?_getD, List.getElem?_map, List.getElem?_range, h]

theorem getD_replicate' {α : Type} {a d : α} {n i : ℕ} (h : i < n) :
    (List.replicate n a).getD i d = a := by
  simp [List.getD_eq_getElem?_getD, List.getElem?_replicate, h]

theorem blockSlice_replicate {α : Type} (a : α) {N navg i : ℕ}
    (h : i < N / navg) :
    blockSlice navg i (List.replicate N a) = List.replicate (navg - 1) a := by
  have h2 : i + 1 ≤ N / navg := h
  have h1 : (i + 1) * navg ≤ (N / navg) * navg := Nat.mul_le_mul_right navg h2
  have h3 : (N / navg) * navg ≤ N := Nat.div_mul_le_self N navg
  have h4 : i * navg + navg ≤ N := by
    have he : (i + 1) * navg = i * navg + navg := by ring
    omega
  unfold blockSlice
  rw [List.drop_replicate, List.take_replicate]
  congr 1
  omega

theorem listMean_replicate {k : ℕ} (v : ℚ) (hk : k ≠ 0) :
    listMean (List.replicate k v) = v := by
  have hq : (k : ℚ) ≠ 0 := Nat.cast_ne_zero.mpr hk
  simp only [listMean, List.sum_replicate, nsmul_eq_mul, List.length_replicate]
  rw [mul_comm, mul_div_assoc, div_self hq, mul_one]

theorem vectorSurvivors_constant {N navg i : ℕ} (v : ℚ) (hv : -999 < v)
    (h : i < N / navg) :
    vectorSurvivors none (List.replicate N v) (List.replicate N true) navg i =
      List.replicate (navg - 1) v := by
  unfold vectorSurvivors
  rw [blockSlice_replicate v h, blockSlice_replicate true h]
  rw [List.zip_replicate]
  rw [List.filter_eq_self.mpr ?_]
  · simp [List.map_replicate]
  · intro p hp
    rw [List.eq_of_mem_replicate hp]
    simp [hv]

theorem validRows_constant {N L navg i : ℕ} (v : ℚ) (h : i < N / navg) :
    validRows (List.replicate N true) navg i
        (List.replicate N (List.replicate L v)) =
      List.replicate (navg - 1) (List.replicate L v) := by
  unfold validRows
  rw [blockSlice_replicate _ h, blockSlice_replicate _ h]
  rw [List.zip_replicate]
  rw [List.filter_eq_self.mpr ?_]
  · simp [List.map_replicate]
  · intro p hp
    rw [List.eq_of_mem_replicate hp]

theorem replicate_ne_nil {α : Type} (a : α) {k : ℕ} (hk : k ≠ 0) :
    List.replicate k a ≠ [] := by
  cases k
  · omega
  · simp [List.replicate_succ]

theorem headD_replicate {α : Type} (a d : α) {k : ℕ} (hk : k ≠ 0) :
    (List.replicate k a).headD d = a := by
  cases k
  · omega
  · simp [List.replicate_succ]

theorem vector_constant_avg {N navg : ℕ} (v : ℚ) (hv : -999 < v)
    (hn : 2 ≤ navg) :
    _vector_average (List.replicate N v) navg none none =
      List.replicate (N / navg) (some v) := by
  have hn1 : navg ≠ 1 := by omega
  have hk : navg - 1 ≠ 0 := by omega
  unfold _vector_average
  rw [if_neg hn1]
  simp only [List.length_replicate, Option.getD_none]
  rw [List.eq_replicate_iff]
  refine ⟨by simp, ?_⟩
  intro b hb
  obtain ⟨i, hi, rfl⟩ := List.mem_map.mp hb
  have hilt : i < N / navg := List.mem_range.mp hi
  rw [vectorSurvivors_constant v hv hilt]
  have hne : (List.replicate (navg - 1) v).isEmpty = false := by
    rw [List.isEmpty_eq_false_iff_exists_mem]
    exact ⟨v, List.mem_replicate.mpr ⟨hk, rfl⟩⟩
  simp only [hne, Bool.false_eq_true, if_false, listMean_replicate v hk]

theorem array_constant_avg {N L navg : ℕ} (v : ℚ) (w : Bool) (hv : -999 < v)
    (hn : 2 ≤ navg) :
    _array_average (List.replicate N (List.replicate L v)) navg w none none =
      Except.ok (List.replicate (N / navg) (List.replicate L (some v))) := by
  have hn1 : navg ≠ 1 := by omega
  have hn0 : navg ≠ 0 := by omega
  have hk : navg - 1 ≠ 0 := by omega
  unfold _array_average
  rw [if_neg hn1, if_neg hn0]
  show Except.ok _ = Except.ok _
  refine congrArg Except.ok ?_
  simp only [List.length_replicate, Option.getD_none]
  rw [List.eq_replicate_iff]
  refine ⟨by simp, ?_⟩
  intro b hb
  obtain ⟨i, hi, rfl⟩ := List.mem_map.mp hb
  have hilt : i < N / navg := List.mem_range.mp hi
  have hN : N ≠ 0 := by
    intro h0
    subst h0
    simp [Nat.zero_div] at hilt
  have hnc : ncols (List.replicate N (List.replicate L v)) = L := by
    unfold ncols
    rw [headD_replicate _ _ hN, List.length_replicate]
  rw [validRows_constant v hilt]
  have hne :
      (List.replicate (navg - 1) (List.replicate L v)).isEmpty = false := by
    rw [List.isEmpty_eq_false_iff_exists_mem]
    exact ⟨_, List.mem_replicate.mpr ⟨hk, rfl⟩⟩
  simp only [hne, Bool.false_eq_true, if_false, hnc]
  rw [List.eq_replicate_iff]
  refine ⟨by simp, ?_⟩
  intro c hc
  obtain ⟨j, hj, rfl⟩ := List.mem_map.mp hc
  have hjL : j < L := List.mem_range.mp hj
  have hnpts : colNpts (List.replicate (navg - 1) (List.replicate L v)) j =
      navg - 1 := by
    unfold colNpts
    rw [List.filter_eq_self.mpr ?_]
    · rw [List.length_replicate]
    · intro r hr
      rw [List.eq_of_mem_replicate hr, getD_replicate' hjL]
      simp [hv]
  have hnlt : ¬ (v < -999) := by linarith
  have hsum : colSum (List.replicate (navg - 1) (List.replicate L v)) j =
      ((navg - 1 : ℕ) : ℚ) * v := by
    unfold colSum
    rw [List.map_replicate, getD_replicate' hjL]
    simp [hnlt, List.sum_replicate, nsmul_eq_mul]
  rw [hnpts, hsum, if_neg hk]
  have hq : ((navg - 1 : ℕ) : ℚ) ≠ 0 := Nat.cast_ne_zero.mpr hk
  rw [mul_comm, mul_div_assoc, div_self hq, mul_one]

/-- Claim C2 (amended: the constant-value property requires `v > -999`;
see `C2_counterexample`): every reducer computes block `i` exclusively
over the slice `[i*navg, i*navg + navg - 1)` of data and mask — two inputs
agreeing on that slice yield the same block (stated for the 2D reducer on
its no-sentinel branch, the only 2D branch that completes: with a
sentinel the source call `ma.mean(aslice, axis=0, weights=w)` raises
`TypeError` whenever a block exists, which the last conjunct states) —
and for an all-valid mask and no sentinel, reducing a
constant vector or constant 2D array of value `v > -999` by any
`navg ≥ 2` yields a constant output of value `v`, each block mean being
computed over exactly `navg - 1` surviving samples. -/
theorem C2_block_slices (navg i N L : ℕ) (v : ℚ) (v0 v1 : List ℚ)
    (valid0 valid1 : List Bool) (a0 a1 : List (List ℚ)) (missing : Option ℚ)
    (w : Bool) :
    (navg ≠ 1 → blockSlice navg i v0 = blockSlice navg i v1 →
      blockSlice navg i valid0 = blockSlice navg i valid1 →
      i < v0.length / navg → i < v1.length / navg →
      (_vector_average v0 navg missing (some valid0)).getD i none =
        (_vector_average v1 navg missing (some valid1)).getD i none) ∧
    (navg ≠ 1 → blockSlice navg i a0 = blockSlice navg i a1 →
      blockSlice navg i valid0 = blockSlice navg i valid1 →
      ncols a0 = ncols a1 →
      i < a0.length / navg → i < a1.length / navg →
      (_array_average a0 navg w (some valid0) none).map
          (fun ys => ys.getD i []) =
        (_array_average a1 navg w (some valid1) none).map
          (fun ys => ys.getD i [])) ∧
    (-999 < v → 2 ≤ navg →
      _vector_average (List.replicate N v) navg none none =
        List.replicate (N / navg) (some v)) ∧
    (-999 < v → 2 ≤ navg →
      _array_average (List.replicate N (List.replicate L v)) navg w none
          none =
        Except.ok (List.replicate (N / navg) (List.replicate L (some v)))) ∧
    (-999 < v → 2 ≤ navg → i < N / navg →
      (vectorSurvivors none (List.replicate N v) (List.replicate N true)
        navg i).length = navg - 1) ∧
    (navg ≠ 1 → 0 < a0.length / navg → ∀ m : ℚ,
      _array_average a0 navg w (some valid0) (some m) =
        Except.error ("TypeError")) := by
  refine ⟨?_, ?_, ?_, ?_, ?_, ?_⟩
  · intro hn hs hvs h0 h1
    unfold _vector_average
    rw [if_neg hn, if_neg hn]
    rw [getD_map_range _ _ h0, getD_map_range _ _ h1]
    simp only [Option.getD_some]
    unfold vectorSurvivors
    rw [hs, hvs]
  · intro hn hs hvs hnc h0 h1
    have hn0 : navg ≠ 0 := by
      intro h
      subst h
      rw [Nat.div_zero] at h0
      omega
    unfold _array_average
    rw [if_neg hn, if_neg hn, if_neg hn0, if_neg hn0]
    simp only [Except.map]
    refine congrArg Except.ok ?_
    rw [getD_map_range _ _ h0, getD_map_range _ _ h1]
    simp only [Option.getD_some]
    unfold validRows
    rw [hs, hvs, hnc]
  · intro hv hn
    exact vector_constant_avg v hv hn
  · intro hv hn
    exact array_constant_avg v w hv hn
  · intro hv hn hi
    rw [vectorSurvivors_constant v hv hi, List.length_replicate]
  · intro hn hpos m
    have hn0 : navg ≠ 0 := by
      intro h
      subst h
      rw [Nat.div_zero] at hpos
      omega
    unfold _array_average
    rw [if_neg hn, if_neg hn0]
    simp [hpos]

/-- Claim C2 fails as stated at the constant value `v = -999`: with an
all-valid mask and no sentinel, reducing the constant vector
`[-999, -999]` by `navg = 2` produces the flag `[-9999]`, not the constant
`[-999]`, because the block filter keeps only samples strictly greater
than `-999`. -/
theorem C2_counterexample :
    _vector_average [-999, -999] 2 none none ≠ [some (-999)] ∧
    _vector_average [-999, -999] 2 none none = [some (-9999)] := by
  constructor
  · decide
  · decide

/-- Concrete run of `C2_block_slices`: block locality on two vectors
agreeing on the first block slice, and the constant-vector fixture of the
specification (`N = 10`, `navg = 3`: three output blocks, each averaged
over exactly `2` samples). -/
theorem C2_witness :
    ((_vector_average [1, 2, 3] 3 none (some [true, true, true])).getD 0
        none =
      (_vector_average [1, 2, 9] 3 none (some [true, true, true])).getD 0
        none) ∧
    ((_array_average [[1], [2], [3]] 3 false (some [true, true, true])
        none).map (fun ys => ys.getD 0 []) =
      (_array_average [[1], [2], [9]] 3 false (some [true, true, true])
        none).map (fun ys => ys.getD 0 [])) ∧
    _vector_average (List.replicate 10 5) 3 none none =
      List.replicate 3 (some 5) ∧
    _array_average (List.replicate 10 (List.replicate 2 5)) 3 false none
        none =
      Except.ok (List.replicate 3 (List.replicate 2 (some 5))) ∧
    (vectorSurvivors none (List.replicate 10 5) (List.replicate 10 true)
      3 0).length = 2 ∧
    _array_average [[1], [2]] 2 false (some [true, true]) (some 5) =
      Except.error ("TypeError") := by
  refine ⟨?_, ?_, ?_, ?_, ?_, ?_⟩
  · exact (C2_block_slices 3 0 10 2 5 [1, 2, 3] [1, 2, 9]
      [true, true, true] [true, true, true] [] [] none false).1
      (by decide) (by decide) (by decide) (by decide) (by decide)
  · exact (C2_block_slices 3 0 10 2 5 [] [] [true, true, true]
      [true, true, true] [[1], [2], [3]] [[1], [2], [9]] none false).2.1
      (by decide) (by decide) (by decide) (by decide) (by decide)
      (by decide)
  · exact (C2_block_slices 3 0 10 2 5 [] [] [] [] [] [] none false).2.2.1
      (by norm_num) (by norm_num)
  · exact (C2_block_slices 3 0 10 2 5 [] [] [] [] [] [] none false).2.2.2.1
      (by norm_num) (by norm_num)
  · exact ((C2_block_slices 3 0 10 2 5 [] [] [] [] [] [] none
      false).2.2.2.2.1 (by norm_num) (by norm_num) (by norm_num))
  · exact (C2_block_slices 2 0 10 2 5 [] [] [true, true] [] [[1], [2]] []
      none false).2.2.2.2.2 (by decide) (by decide) 5

/-- Claim C3: a block whose mask-valid member count is zero produces the
sentinel flag `-9999`: for the vector no-sentinel path the block value is
`-9999`; for the 2D path the whole output row is `-9999` when no shots
survive the mask, and an individual column is `-9999` when zero samples
`> -999` contribute to it. -/
theorem C3_empty_blocks (v0 : List ℚ) (a0 : List (List ℚ))
    (valid : List Bool) (navg i j : ℕ) (w : Bool) (hn : navg ≠ 1) :
    (i < v0.length / navg → (∀ b ∈ blockSlice navg i valid, b = false) →
      (_vector_average v0 navg none (some valid)).getD i none =
        some (-9999)) ∧
    (i < a0.length / navg → (∀ b ∈ blockSlice navg i valid, b = false) →
      (_array_average a0 navg w (some valid) none).map
          (fun ys => ys.getD i []) =
        Except.ok (List.replicate (ncols a0) (some (-9999)))) ∧
    (i < a0.length / navg → (validRows valid navg i a0).isEmpty = false →
      j < ncols a0 → colNpts (validRows valid navg i a0) j = 0 →
      (_array_average a0 navg w (some valid) none).map
          (fun ys => (ys.getD i []).getD j none) =
        Except.ok (some (-9999))) := by
  refine ⟨?_, ?_, ?_⟩
  · intro hi hmask
    unfold _vector_average
    rw [if_neg hn, getD_map_range _ _ hi]
    simp only [Option.getD_some]
    have hsurv : vectorSurvivors none v0 valid navg i = [] := by
      unfold vectorSurvivors
      rw [List.filter_eq_nil_iff.mpr ?_]
      · rfl
      · intro p hp
        have h2 := (List.of_mem_zip hp).2
        rw [hmask p.2 h2]
        simp
    rw [hsurv]
    rfl
  · intro hi hmask
    have hn0 : navg ≠ 0 := by
      intro h
      subst h
      rw [Nat.div_zero] at hi
      omega
    unfold _array_average
    rw [if_neg hn, if_neg hn0]
    simp only [Except.map]
    refine congrArg Except.ok ?_
    rw [getD_map_range _ _ hi]
    simp only [Option.getD_some]
    have hrows : validRows valid navg i a0 = [] := by
      unfold validRows
      rw [List.filter_eq_nil_iff.mpr ?_]
      · rfl
      · intro p hp
        have h2 := (List.of_mem_zip hp).2
        rw [hmask p.2 h2]
        simp
    rw [hrows]
    rfl
  · intro hi hrows hj hnpts
    have hn0 : navg ≠ 0 := by
      intro h
      subst h
      rw [Nat.div_zero] at hi
      omega
    unfold _array_average
    rw [if_neg hn, if_neg hn0]
    simp only [Except.map]
    refine congrArg Except.ok ?_
    rw [getD_map_range _ _ hi]
    simp only [Option.getD_some]
    rw [hrows]
    simp only [Bool.false_eq_true, if_false]
    rw [getD_map_range _ _ hj, if_pos hnpts]

/-- Concrete runs of `C3_empty_blocks`: an all-masked vector block, an
all-masked 2D block row, and a 2D column whose only surviving sample is
not `> -999`. -/
theorem C3_witness :
    (_vector_average [1, 2] 2 none (some [false, false])).getD 0 none =
      some (-9999) ∧
    (_array_average [[1], [2]] 2 false (some [false, false]) none).map
        (fun ys => ys.getD 0 []) =
      Except.ok (List.replicate (ncols [[1], [2]]) (some (-9999))) ∧
    (_array_average [[-1000], [5]] 2 false (some [true, true]) none).map
        (fun ys => (ys.getD 0 []).getD 0 none) =
      Except.ok (some (-9999)) := by
  refine ⟨?_, ?_, ?_⟩
  · exact (C3_empty_blocks [1, 2] [] [false, false] 2 0 0 false
      (by decide)).1 (by decide) (by decide)
  · exact (C3_empty_blocks [] [[1], [2]] [false, false] 2 0 0 false
      (by decide)).2.1 (by decide) (by decide)
  · exact (C3_empty_blocks [] [[-1000], [5]] [true, true] 2 0 0 false
      (by decide)).2.2 (by decide) (by decide) (by decide) (by decide)

/-- Claim C4: in the vector path with a sentinel, a block value is the
"no data" NaN (`none`) exactly when no element of the block slice is
simultaneously different from the sentinel, mask-valid and `> -999`
(the survivors); a nonempty survivor set yields its mean; and the NaN
result is distinct from what the no-sentinel path produces, which is
never NaN (`-9999` for an empty block). -/
theorem C4_sentinel_path (v0 : List ℚ) (valid : List Bool) (m : ℚ)
    (navg i : ℕ) (hn : navg ≠ 1) (hi : i < v0.length / navg) :
    ((_vector_average v0 navg (some m) (some valid)).getD i none = none ↔
      ∀ p ∈ (blockSlice navg i v0).zip (blockSlice navg i valid),
        ¬(p.1 ≠ m ∧ p.2 = true ∧ -999 < p.1)) ∧
    (vectorSurvivors (some m) v0 valid navg i ≠ [] →
      (_vector_average v0 navg (some m) (some valid)).getD i none =
        some (listMean (vectorSurvivors (some m) v0 valid navg i))) ∧
    (_vector_average v0 navg none (some valid)).getD i none ≠ none := by
  refine ⟨?_, ?_, ?_⟩
  · unfold _vector_average
    rw [if_neg hn, getD_map_range _ _ hi]
    simp only [Option.getD_some]
    constructor
    · intro hnone p hp
      by_cases hemp :
          (vectorSurvivors (some m) v0 valid navg i).isEmpty = true
      · have : vectorSurvivors (some m) v0 valid navg i = [] :=
          List.isEmpty_iff.mp hemp
        unfold vectorSurvivors at this
        have hall := List.filter_eq_nil_iff.mp (List.map_eq_nil_iff.mp this)
        have := hall p hp
        intro hc
        apply this
        simp [hc.1, hc.2.1, hc.2.2]
      · rw [if_neg (by simp [hemp])] at hnone
        exact absurd hnone (by simp)
    · intro hall
      have hsurv : vectorSurvivors (some m) v0 valid navg i = [] := by
        unfold vectorSurvivors
        rw [List.filter_eq_nil_iff.mpr ?_]
        · rfl
        · intro p hp
          have := hall p hp
          intro hc
          apply this
          simp only [Bool.and_eq_true, decide_eq_true_eq] at hc
          exact ⟨hc.1.1, hc.1.2, hc.2⟩
      rw [hsurv]
      rfl
  · intro hne
    unfold _vector_average
    rw [if_neg hn, getD_map_range _ _ hi]
    simp only [Option.getD_some]
    rw [if_neg (by simp [hne])]
  · unfold _vector_average
    rw [if_neg hn, getD_map_range _ _ hi]
    simp only [Option.getD_some]
    by_cases hemp :
        (vectorSurvivors none v0 valid navg i).isEmpty = true
    · rw [if_pos hemp]
      simp
    · rw [if_neg hemp]
      simp

/-- Concrete run of `C4_sentinel_path`: a block whose every sample equals
the sentinel `7` yields NaN, while the no-sentinel path on the same block
yields a non-NaN value. -/
theorem C4_witness :
    (_vector_average [7, 7, 5] 3 (some 7) (some [true, true, true])).getD 0
        none =
      none ∧
    (_vector_average [7, 7, 5] 3 none (some [true, true, true])).getD 0
        none ≠
      none := by
  constructor
  · exact (C4_sentinel_path [7, 7, 5] [true, true, true] 7 3 0 (by decide)
      (by decide)).1.mpr (by decide)
  · exact (C4_sentinel_path [7, 7, 5] [true, true, true] 7 3 0 (by decide)
      (by decide)).2.2

theorem getD_map' {α β : Type} (f : α → β) (l : List α) {i : ℕ} (d : α)
    (d' : β) (h : i < l.length) :
    (l.map f).getD i d' = f (l.getD i d) := by
  simp [List.getD_eq_getElem?_getD, List.getElem?_map,
    List.getElem?_eq_getElem h]

theorem headD_reverse {α : Type} (l : List α) (d : α) :
    l.reverse.headD d = l.getLastD d := by
  rw [List.headD_eq_head?, List.head?_reverse, List.getLastD_eq_getLast?]

theorem getLastD_reverse {α : Type} (l : List α) (d : α) :
    l.reverse.getLastD d = l.headD d := by
  rw [List.getLastD_eq_getLast?, List.getLast?_reverse, List.headD_eq_head?]

theorem getLastD_cons_cons {α : Type} (a b d : α) (l : List α) :
    (a :: b :: l).getLastD d = (b :: l).getLastD d := by
  simp [List.getLastD_cons]

theorem chain_le_getLastD : ∀ (l : List ℚ) (a : ℚ),
    List.Chain' (· < ·) (a :: l) → a ≤ (a :: l).getLastD 0
  | [], _, _ => by simp
  | b :: l, a, h => by
    have h1 : a < b := (List.chain'_cons.mp h).1
    have h2 := chain_le_getLastD l b (List.chain'_cons.mp h).2
    rw [getLastD_cons_cons]
    linarith

theorem npinterp_le_head (x : ℚ) : ∀ (xp fp : List ℚ),
    xp.length = fp.length → xp ≠ [] → x ≤ xp.headD 0 →
    npinterp x xp fp = fp.headD 0
  | [], _, _, hne, _ => absurd rfl hne
  | [_], [_], _, _, _ => by simp [npinterp]
  | [_], [], hlen, _, _ => by simp at hlen
  | [_], _ :: _ :: _, hlen, _, _ => by simp at hlen
  | _ :: _ :: _, [], hlen, _, _ => by simp at hlen
  | _ :: _ :: _, [_], hlen, _, _ => by simp at hlen
  | x0 :: x1 :: xs, f0 :: f1 :: fs, _, _, h => by
    simp only [List.headD_cons] at h ⊢
    simp [npinterp, if_pos h]

theorem npinterp_ge_last (x : ℚ) : ∀ (xp fp : List ℚ),
    xp.length = fp.length → List.Chain' (· < ·) xp → xp ≠ [] →
    xp.getLastD 0 ≤ x → npinterp x xp fp = fp.getLastD 0
  | [], _, _, _, hne, _ => absurd rfl hne
  | [_], [_], _, _, _, _ => by simp [npinterp]
  | [_], [], hlen, _, _, _ => by simp at hlen
  | [_], _ :: _ :: _, hlen, _, _, _ => by simp at hlen
  | _ :: _ :: _, [], hlen, _, _, _ => by simp at hlen
  | _ :: _ :: _, [_], hlen, _, _, _ => by simp at hlen
  | x0 :: x1 :: xs, f0 :: f1 :: fs, hlen, hch, _, h => by
    have hx01 : x0 < x1 := (List.chain'_cons.mp hch).1
    have hch1 : List.Chain' (· < ·) (x1 :: xs) := (List.chain'_cons.mp hch).2
    have hlast : x1 ≤ (x1 :: xs).getLastD 0 := chain_le_getLastD xs x1 hch1
    rw [getLastD_cons_cons] at h
    have hx : x1 ≤ x := le_trans hlast h
    have hnle : ¬ x ≤ x0 := by linarith
    rw [getLastD_cons_cons]
    show npinterp x (x0 :: x1 :: xs) (f0 :: f1 :: fs) =
      (f1 :: fs).getLastD 0
    by_cases hle : x ≤ x1
    · cases xs with
      | nil =>
        have hfs : fs = [] := by
          cases fs with
          | nil => rfl
          | cons a as =>
            exfalso
            simp only [List.length_cons, List.length_nil] at hlen
            omega
        subst hfs
        have hne0 : x1 - x0 ≠ 0 := sub_ne_zero.mpr (ne_of_gt hx01)
        have hxeq : x = x1 := le_antisymm hle hx
        simp only [npinterp, if_neg hnle, if_pos hle]
        subst hxeq
        rw [mul_div_assoc, div_self hne0, mul_one]
        show f0 + (f1 - f0) = f1
        ring
      | cons y ys =>
        exfalso
        have hx1y : x1 < y := (List.chain'_cons.mp hch1).1
        have hyl : y ≤ (y :: ys).getLastD 0 :=
          chain_le_getLastD ys y (List.chain'_cons.mp hch1).2
        rw [getLastD_cons_cons] at h
        linarith
    · have hlen1 : (x1 :: xs).length = (f1 :: fs).length := by
        simp only [List.length_cons] at hlen ⊢
        omega
      have hrec := npinterp_ge_last x (x1 :: xs) (f1 :: fs) hlen1 hch1
        (by simp) h
      simp only [npinterp, if_neg hnle, if_neg hle]
      exact hrec

/-- Claim C5: the vertical regridder clamps: for every input row and
every target coordinate lying below the minimum (the last entry of the
decreasing coarse coordinate list) or above the maximum (its first
entry), the interpolated output is the corresponding endpoint value of
that row, never a value extrapolated beyond the endpoints. -/
theorem C5_remap_clamps (z0 : List (List ℚ)) (y0 y : List ℚ) (i k : ℕ)
    (hy0 : y0 ≠ []) (hch : List.Chain' (· > ·) y0)
    (hrow : (z0.getD i []).length = y0.length)
    (hi : i < z0.length) (hk : k < y.length) :
    (y.getD k 0 < y0.getLastD 0 →
      ((_remap_y z0 y0 y).getD i []).getD k 0 =
        (z0.getD i []).getLastD 0) ∧
    (y0.headD 0 < y.getD k 0 →
      ((_remap_y z0 y0 y).getD i []).getD k 0 = (z0.getD i []).headD 0) := by
  have hrev_ne : y0.reverse ≠ [] := by simpa using hy0
  have hchrev : List.Chain' (· < ·) y0.reverse := by
    rw [List.chain'_reverse]
    exact hch
  have hlen : (y0.reverse).length = ((z0.getD i []).reverse).length := by
    simp only [List.length_reverse]
    exact hrow.symm
  constructor
  · intro ht
    unfold _remap_y
    rw [getD_map' _ z0 [] [] hi, getD_map' _ y 0 0 hk]
    rw [npinterp_le_head _ _ _ hlen hrev_ne ?_]
    · exact headD_reverse _ _
    · rw [headD_reverse]
      exact le_of_lt ht
  · intro ht
    unfold _remap_y
    rw [getD_map' _ z0 [] [] hi, getD_map' _ y 0 0 hk]
    rw [npinterp_ge_last _ _ _ hlen hchrev hrev_ne ?_]
    · exact getLastD_reverse _ _
    · rw [getLastD_reverse]
      exact le_of_lt ht

/-- Concrete run of `C5_remap_clamps` on the row `[10, 20]` over the
decreasing coarse coordinates `[2, 1]`: the target `0` below the range
gives the low-end value `20`, the target `3` above the range gives the
high-end value `10`. -/
theorem C5_witness :
    ((_remap_y [[10, 20]] [2, 1] [0, 3]).getD 0 []).getD 0 0 = 20 ∧
    ((_remap_y [[10, 20]] [2, 1] [0, 3]).getD 0 []).getD 1 0 = 10 := by
  constructor
  · have h := C5_remap_clamps [[10, 20]] [2, 1] [0, 3] 0 0 (by decide)
      (by norm_num [List.chain'_cons, List.chain'_singleton]) (by decide)
      (by decide) (by decide)
    have h2 := h.1 (by decide)
    simpa using h2
  · have h := C5_remap_clamps [[10, 20]] [2, 1] [0, 3] 0 1 (by decide)
      (by norm_num [List.chain'_cons, List.chain'_singleton]) (by decide)
      (by decide) (by decide)
    have h2 := h.2 (by decide)
    simpa using h2

/-- Claim C6: `navg = 1` is a true identity of the reducers: the vector and
array averaging paths return the input unchanged (up to the `some`
injection of the NaN-free float model), and the standard-deviation path
returns an all-zero array of the same shape as the input. -/
theorem C6_navg_one_identity (v0 : List ℚ) (a0 b0 : List (List ℚ))
    (npstd : List ℚ → ℚ) (m m2 : Option ℚ) (va vb vc : Option (List Bool))
    (w : Bool) :
    _vector_average v0 1 m va = v0.map some ∧
    _array_average a0 1 w vb m2 =
      Except.ok (a0.map (fun r => r.map some)) ∧
    _array_std npstd b0 1 vc = b0.map (fun r => r.map (fun _ => 0)) := by
  refine ⟨?_, ?_, ?_⟩ <;> simp [_vector_average, _array_average, _array_std]

/-- Claim C7: requesting a decimation factor `navg` strictly larger than
the number of available shots yields the explicit no-result value `None`
from `_read_var`, for every variable, sub-range, sentinel and mask. -/
theorem C7_navg_exceeds_shots (var : NdVar) (navg : ℕ)
    (idx : Option (ℕ × ℕ)) (missing : Option ℚ) (valid : Option (List Bool))
    (h : var.size0 < navg) :
    Cal1._read_var var navg idx missing valid = ReadResult.noneR := by
  have h0 : navg ≠ 0 := by omega
  unfold Cal1._read_var
  simp [h0, h]

/-- Concrete run of `C7_navg_exceeds_shots`: a two-shot variable read with
`navg = 3` returns `None`. -/
theorem C7_witness :
    (NdVar.v1 [1, 2]).size0 < 3 ∧
    Cal1._read_var (NdVar.v1 [1, 2]) 3 none none none = ReadResult.noneR :=
  ⟨by decide, C7_navg_exceeds_shots (NdVar.v1 [1, 2]) 3 none none none
    (by decide)⟩

/-! Calibration: claims C1 and C10 -/

/-- Spec reading of the kept window values: the reference-band atb values
at the window indices that fall inside the per-orbit-type bound
interval. -/
def windowKeptAtb (z : OrbitType) (atbp : List (Option ℚ))
    (nprof navgh i : ℕ) : List ℚ :=
  ((windowIdx nprof navgh i).filterMap (fun j => atbp.getD j none)).filter
    (fun x => decide ((iatb_bounds z).1 < x ∧ x < (iatb_bounds z).2))

/-- Spec reading of the window mol values: the reference-band mol values
at the window indices, unfiltered by the atb bound (masked entries
skipped). -/
def windowMol (molp : List (Option ℚ)) (nprof navgh i : ℕ) : List ℚ :=
  ((windowIdx nprof navgh i).map (fun j => molp.getD j none)).filterMap id

theorem keptAtb_eq (z : OrbitType) (atbp : List (Option ℚ))
    (idxh : List ℕ) :
    keptAtb z atbp idxh =
      (idxh.filterMap (fun j => atbp.getD j none)).filter
        (fun x => decide ((iatb_bounds z).1 < x ∧ x < (iatb_bounds z).2)) := by
  induction idxh with
  | nil => rfl
  | cons j t ih =>
    simp only [keptAtb, List.filterMap_cons] at ih ⊢
    cases hj : atbp.getD j none with
    | none => simpa using ih
    | some x =>
      simp at ih
      by_cases hb : (iatb_bounds z).1 < x ∧ x < (iatb_bounds z).2
      · simp [hb, List.filter_cons, ih]
      · simp [hb, List.filter_cons, ih]

theorem mdiv_if_maskedMean (K : List ℚ) (M : List (Option ℚ)) :
    mdiv (if K.isEmpty then none else some (listMean K)) (maskedMean M) =
      if K.isEmpty then none
      else if (M.filterMap id).isEmpty then none
      else some (listMean K / listMean (M.filterMap id)) := by
  unfold mdiv maskedMean
  by_cases hK : K.isEmpty
  · simp [hK]
  · by_cases hM : (M.filterMap id).isEmpty
    · simp [hK, hM]
    · simp [hK, hM]

/-- Claim C1: for every profile index `i`, the calibration coefficient
equals the mean of the reference-band atb values in the moving window
`[max(0, i-navgh), min(nprof-1, i+navgh))` that fall inside the
per-orbit-type bound interval, divided by the (masked) mean of the
reference-band mol values in that window unfiltered by the atb bound; a
window with zero kept atb values yields the explicit NaN no-value
(`none`), never a crash and never a silent zero. -/
theorem C1_calibration_coef (z : OrbitType) (alt : List ℚ) (navgh : ℕ)
    (zmin zmax : ℚ) (mol atb : List (List ℚ)) (i : ℕ)
    (hi : i < mol.length) :
    ((Cal1.mol_calibration_coef z alt navgh zmin zmax mol atb).1.getD i
        none =
      if (windowKeptAtb z (calibProfile alt zmin zmax (screenAtb z atb))
          mol.length navgh i).isEmpty then none
      else if (windowMol (calibProfile alt zmin zmax (screenMol mol))
          mol.length navgh i).isEmpty then none
      else some (listMean (windowKeptAtb z
          (calibProfile alt zmin zmax (screenAtb z atb)) mol.length navgh
          i) /
        listMean (windowMol (calibProfile alt zmin zmax (screenMol mol))
          mol.length navgh i))) ∧
    (windowKeptAtb z (calibProfile alt zmin zmax (screenAtb z atb))
        mol.length navgh i = [] →
      (Cal1.mol_calibration_coef z alt navgh zmin zmax mol atb).1.getD i
        none = none) ∧
    (∀ j, j ∈ windowIdx mol.length navgh i ↔
      i - navgh ≤ j ∧ j < min (mol.length - 1) (i + navgh)) := by
  have hlenS : (screenMol mol).length = mol.length := by simp [screenMol]
  have hi' : i < (screenMol mol).length := by rw [hlenS]; exact hi
  have hfst : (Cal1.mol_calibration_coef z alt navgh zmin zmax mol
      atb).1 =
      (List.range (screenMol mol).length).map (fun k => coefAt z
        (calibProfile alt zmin zmax (screenAtb z atb))
        (calibProfile alt zmin zmax (screenMol mol))
        (screenMol mol).length navgh k) := rfl
  have hmain : (Cal1.mol_calibration_coef z alt navgh zmin zmax mol
      atb).1.getD i none =
      if (windowKeptAtb z (calibProfile alt zmin zmax (screenAtb z atb))
          mol.length navgh i).isEmpty then none
      else if (windowMol (calibProfile alt zmin zmax (screenMol mol))
          mol.length navgh i).isEmpty then none
      else some (listMean (windowKeptAtb z
          (calibProfile alt zmin zmax (screenAtb z atb)) mol.length navgh
          i) /
        listMean (windowMol (calibProfile alt zmin zmax (screenMol mol))
          mol.length navgh i)) := by
    rw [hfst, getD_map_range _ _ hi']
    simp only [coefAt]
    rw [keptAtb_eq, hlenS, mdiv_if_maskedMean]
    simp only [windowKeptAtb, windowMol]
  refine ⟨hmain, ?_, ?_⟩
  · intro hkept
    rw [hmain]
    rw [if_pos ?_]
    rw [windowKeptAtb] at hkept
    rw [windowKeptAtb, hkept]
    rfl
  · intro j
    simp only [windowIdx, List.mem_map, List.mem_range]
    constructor
    · rintro ⟨k, hk, rfl⟩
      omega
    · intro h
      exact ⟨j - (i - navgh), by omega, by omega⟩

/-- Concrete runs of `C1_calibration_coef`: a two-profile night orbit with
in-bound atb `2e-5` and mol `4e-5` gives the coefficient `1/2` at profile
`0`; a single-profile file has the empty window `[0, min(0, 50)) = ∅`,
zero kept atb values, and the NaN coefficient. -/
theorem C1_witness :
    (Cal1.mol_calibration_coef OrbitType.ZN [31] 50 30 34
        [[4 / 100000], [4 / 100000]]
        [[2 / 100000], [2 / 100000]]).1.getD 0 none = some (1 / 2) ∧
    (Cal1.mol_calibration_coef OrbitType.ZN [31] 50 30 34 [[4 / 100000]]
        [[2 / 100000]]).1.getD 0 none = none := by
  constructor
  · refine ((C1_calibration_coef OrbitType.ZN [31] 50 30 34
      [[4 / 100000], [4 / 100000]] [[2 / 100000], [2 / 100000]] 0
      (by decide)).1).trans ?_
    norm_num [windowKeptAtb, windowMol, windowIdx, calibProfile,
      bandValues, maskedMean, listMean, screenAtb, screenMol, iatb_bounds,
      atb_max, List.filter_cons, List.filterMap_cons, List.range_succ,
      abs_of_pos]
  · exact (C1_calibration_coef OrbitType.ZN [31] 50 30 34 [[4 / 100000]]
      [[2 / 100000]] 0 (by decide)).2.1 (by decide)

/-- Claim C10: `mol_calibration_coef` mutates its `atb` and `mol` inputs
in place (modelled by the returned post-call array states): an atb entry
is overwritten with NaN exactly when its magnitude exceeds the
per-orbit-type maximum and is unchanged otherwise, a mol entry is
overwritten with NaN exactly when negative; `mol_on_lidar_alt_calibrated`
feeds its caller-supplied pre-read `atb` through that same screening, so
the array held by the caller is the screened one after the call — at the concrete
night-orbit input `atb = [[2e-4]]` the post-call array `[[NaN]]` differs
from the data passed in. -/
theorem C10_inplace_screening (z : OrbitType) (alt metalt : List ℚ)
    (navgh : ℕ) (zmin zmax : ℚ) (zcal : ℚ × ℚ)
    (mol0 mol atb : List (List ℚ)) (i j : ℕ)
    (hi : i < atb.length) (hj : j < (atb.getD i []).length)
    (hi' : i < mol.length) (hj' : j < (mol.getD i []).length) :
    (((Cal1.mol_calibration_coef z alt navgh zmin zmax mol atb).2.1.getD
        i []).getD j (some 0) =
      if |(atb.getD i []).getD j 0| > atb_max z then none
      else some ((atb.getD i []).getD j 0)) ∧
    (((Cal1.mol_calibration_coef z alt navgh zmin zmax mol atb).2.2.getD
        i []).getD j (some 0) =
      if (mol.getD i []).getD j 0 < 0 then none
      else some ((mol.getD i []).getD j 0)) ∧
    ((Cal1.mol_on_lidar_alt_calibrated z alt metalt navgh zcal mol0
        atb).2 = screenAtb z atb) ∧
    ((Cal1.mol_calibration_coef OrbitType.ZN [31] 50 30 34 [[1]]
        [[2 / 10000]]).2.1 = [[none]] ∧
      ([[none]] : List (List (Option ℚ))) ≠ [[some (2 / 10000)]]) := by
  have hconc : (Cal1.mol_calibration_coef OrbitType.ZN [31] 50 30 34
      [[1]] [[2 / 10000]]).2.1 = screenAtb OrbitType.ZN [[2 / 10000]] :=
    rfl
  refine ⟨?_, ?_, rfl, hconc.trans (by norm_num [screenAtb, atb_max,
    abs_of_pos]), by decide⟩
  · have h21 : (Cal1.mol_calibration_coef z alt navgh zmin zmax mol
        atb).2.1 = screenAtb z atb := rfl
    rw [h21]
    unfold screenAtb
    rw [getD_map' _ atb [] [] hi, getD_map' _ (atb.getD i []) 0 (some 0) hj]
  · have h22 : (Cal1.mol_calibration_coef z alt navgh zmin zmax mol
        atb).2.2 = screenMol mol := rfl
    rw [h22]
    unfold screenMol
    rw [getD_map' _ mol [] [] hi', getD_map' _ (mol.getD i []) 0 (some 0)
      hj']

/-- Concrete run of `C10_inplace_screening`: on a night orbit, the
out-of-bound atb entry `2e-4` and the negative mol entry `-1` are both
NaN in the arrays held by the caller after the call. -/
theorem C10_witness :
    ((Cal1.mol_calibration_coef OrbitType.ZN [31] 50 30 34 [[-1]]
        [[2 / 10000]]).2.1.getD 0 []).getD 0 (some 0) = none ∧
    ((Cal1.mol_calibration_coef OrbitType.ZN [31] 50 30 34 [[-1]]
        [[2 / 10000]]).2.2.getD 0 []).getD 0 (some 0) = none := by
  have h := C10_inplace_screening OrbitType.ZN [31] [31] 50 30 34 (30, 34)
    [[1]] [[-1]] [[2 / 10000]] 0 0 (by decide) (by decide) (by decide)
    (by decide)
  exact ⟨h.1.trans (by norm_num [atb_max, abs_of_pos]),
    h.2.1.trans (by norm_num)⟩

/-! Time decoding: claim C8 -/

theorem decY_mono {u v : ℚ} (h : u ≤ v) : decY u ≤ decY v := by
  unfold decY
  apply Int.floor_mono
  linarith

theorem decM_mono {u v : ℚ} (h : u ≤ v) (hy : decY u = decY v) :
    decM u ≤ decM v := by
  unfold decM
  rw [hy]
  apply Int.floor_mono
  linarith

theorem decD_mono {u v : ℚ} (h : u ≤ v) (hy : decY u = decY v)
    (hm : decM u = decM v) : decD u ≤ decD v := by
  unfold decD
  rw [hy, hm]
  apply Int.floor_mono
  linarith

theorem sorted_head_le {l : List ℚ} (hs : List.Sorted (· ≤ ·) l) {x : ℚ}
    (hx : x ∈ l) : l.headD 0 ≤ x := by
  cases l with
  | nil => exact absurd hx (List.not_mem_nil x)
  | cons a t =>
    rcases List.mem_cons.mp hx with rfl | hx'
    · exact le_refl x
    · exact (List.rel_of_sorted_cons hs) x hx'

theorem sorted_le_getLastD : ∀ (l : List ℚ),
    List.Sorted (· ≤ ·) l → ∀ x ∈ l, x ≤ l.getLastD 0
  | [], _, x, hx => absurd hx (List.not_mem_nil x)
  | [a], _, x, hx => by
    rcases List.mem_singleton.mp hx with rfl
    exact le_refl _
  | a :: b :: t, hs, x, hx => by
    have hs' : List.Sorted (· ≤ ·) (b :: t) := hs.of_cons
    rw [getLastD_cons_cons]
    rcases List.mem_cons.mp hx with rfl | hx'
    · have hab : x ≤ b :=
        (List.rel_of_sorted_cons hs) b (List.mem_cons_self b t)
      have hbl := sorted_le_getLastD (b :: t) hs' b
        (List.mem_cons_self b t)
      linarith
    · exact sorted_le_getLastD (b :: t) hs' x hx'

/-- Claim C8 (amended: the fast path is selected by comparing only the
decoded day-of-month of the first and last samples, so the slow path is
taken exactly when those day numbers differ — not exactly when the
sequence straddles a calendar date boundary, see `C8_counterexample`):
for every nonempty ordered sequence whose first and last samples decode
to the same calendar date, `datetime2` takes the fast path and produces
exactly the per-sample array of the slow path `datetime`; and the slow
path is taken iff the decoded day-of-month of first and last samples
differ. -/
theorem C8_fast_path (utc : List ℚ) (hs : List.Sorted (· ≤ ·) utc)
    (hy : decY (utc.headD 0) = decY (utc.getLastD 0))
    (hm : decM (utc.headD 0) = decM (utc.getLastD 0))
    (hd : decD (utc.headD 0) = decD (utc.getLastD 0)) :
    Cal2.datetime2 utc = Cal2.datetime utc ∧
    (Cal2.sameDayFastPath utc = false ↔
      decD (utc.headD 0) ≠ decD (utc.getLastD 0)) := by
  constructor
  · unfold Cal2.datetime2
    rw [if_pos ?_]
    · unfold Cal2.datetime
      apply List.map_congr_left
      intro u hu
      have h1 : utc.headD 0 ≤ u := sorted_head_le hs hu
      have h2 : u ≤ utc.getLastD 0 := sorted_le_getLastD utc hs u hu
      have hyu : decY u = decY (utc.headD 0) := by
        have g1 := decY_mono h1
        have g2 := decY_mono h2
        omega
      have hmu : decM u = decM (utc.headD 0) := by
        have g1 := decM_mono h1 hyu.symm
        have g2 := decM_mono h2 (by rw [hyu, hy])
        omega
      have hdu : decD u = decD (utc.headD 0) := by
        have g1 := decD_mono h1 hyu.symm hmu.symm
        have g2 := decD_mono h2 (by rw [hyu, hy]) (by rw [hmu, hm])
        omega
      unfold decodeSlow
      rw [hyu, hmu, hdu]
    · unfold Cal2.sameDayFastPath
      exact beq_iff_eq.mpr hd
  · unfold Cal2.sameDayFastPath
    constructor
    · intro hfalse
      intro heq
      rw [heq] at hfalse
      simp at hfalse
    · intro hne
      simpa using hne

/-- The path-selection half of claim C8 is false as stated: the ordered
sequence `[100105.5, 100205.5]` decodes to the dates 2010-01-05 and
2010-02-05 — it straddles a date boundary — yet the day-of-month
comparison `d0 == d1` selects the fast path, which then even mislabels
the second sample with the month of the first sample. -/
theorem C8_counterexample :
    decM ((1001055 : ℚ) / 10) ≠ decM ((1002055 : ℚ) / 10) ∧
    Cal2.sameDayFastPath [(1001055 : ℚ) / 10, (1002055 : ℚ) / 10] =
      true ∧
    Cal2.datetime2 [(1001055 : ℚ) / 10, (1002055 : ℚ) / 10] ≠
      Cal2.datetime [(1001055 : ℚ) / 10, (1002055 : ℚ) / 10] := by
  refine ⟨?_, ?_, ?_⟩
  · norm_num [decM, decY]
  · norm_num [Cal2.sameDayFastPath, decD, decM, decY]
  · norm_num [Cal2.datetime2, Cal2.datetime, Cal2.sameDayFastPath,
      decodeSlow, decD, decM, decY, secondsIntoDay]

/-- Concrete run of `C8_fast_path`: a two-sample ordered sequence inside
2010-01-05 decodes identically through the fast and the slow path. -/
theorem C8_witness :
    Cal2.datetime2 [(1001052 : ℚ) / 10, (1001055 : ℚ) / 10] =
      Cal2.datetime [(1001052 : ℚ) / 10, (1001055 : ℚ) / 10] :=
  (C8_fast_path [(1001052 : ℚ) / 10, (1001055 : ℚ) / 10]
    (by norm_num [List.sorted_cons])
    (by norm_num [decY] :
      decY ((1001052 : ℚ) / 10) = decY ((1001055 : ℚ) / 10))
    (by norm_num [decM, decY] :
      decM ((1001052 : ℚ) / 10) = decM ((1001055 : ℚ) / 10))
    (by norm_num [decD, decM, decY] :
      decD ((1001052 : ℚ) / 10) = decD ((1001055 : ℚ) / 10))).1

/-! Resource release: claim C9 -/

/-- Claim C9 states the release must be idempotent-safe; the code faults
instead: `close` calls `end()` on the handle and nulls it, so a second
`close` calls `end()` on `None` and raises `AttributeError`.  This
evaluates the model at the failing input (two consecutive `close` calls
on an open handle). -/
theorem C9_double_close_faults :
    Except.bind (_Cal.close (some ())) _Cal.close =
      Except.error ("AttributeError") := rfl

end Calipso
